import Mathlib

/-!
Verification of the ZurichWoof data-loading pipeline (`data_loader.py`).

The definitions below are a shallow embedding of the functions of
`data_loader.py`.  The collaborating classes (`District`, `User`, `Graph`,
`WeightedGraph`) are not part of the given sources; they are modelled from
the specification (id-based equality for districts, set semantics for graph
vertices and edges, default weight 0 for absent edges, truthy objects).
Python floats are modelled as rationals, Python exceptions as `Except`.
-/

/-- Model of the Python character upper-casing used by `str.upper`:
ASCII lower-case letters are shifted to upper case, all else unchanged. -/
def pyCharUpper (c : Char) : Char :=
  if 'a' ≤ c ∧ c ≤ 'z' then Char.ofNat (c.toNat - 32) else c

/-- Model of the Python character lower-casing used by `str.capitalize`. -/
def pyCharLower (c : Char) : Char :=
  if 'A' ≤ c ∧ c ≤ 'Z' then Char.ofNat (c.toNat + 32) else c

/-- Model of the Python test `not s.strip()`: true exactly when every
character of the string is whitespace (so `s.strip()` is empty). -/
def pyBlank (s : String) : Bool :=
  s.data.all Char.isWhitespace

/-- Model of Python `s.upper()`. -/
def pyUpper (s : String) : String :=
  String.mk (s.data.map pyCharUpper)

/-- Model of Python `s.capitalize()`: first character upper-cased, the
rest lower-cased. -/
def pyCapitalize (s : String) : String :=
  match s.data with
  | [] => ""
  | c :: rest => String.mk (pyCharUpper c :: rest.map pyCharLower)

/-- Whitespace stripping on a character list (both ends), as `str.strip()`. -/
def stripWS (l : List Char) : List Char :=
  ((l.dropWhile Char.isWhitespace).reverse.dropWhile Char.isWhitespace).reverse

/-- Digit-string parsing helper for `pyParseInt`. -/
def parseDigits (cs : List Char) : Option Nat :=
  if cs ≠ [] ∧ cs.all Char.isDigit then
    some (cs.foldl (fun n c => 10 * n + (c.toNat - 48)) 0)
  else none

/-- Model of Python `int(s)`: optional surrounding whitespace, optional
sign, then decimal digits; anything else raises, modelled as `none`. -/
def pyParseInt (s : String) : Option Int :=
  match stripWS s.data with
  | '-' :: rest => (parseDigits rest).map (fun n => -(n : Int))
  | '+' :: rest => (parseDigits rest).map (fun n => (n : Int))
  | cs => (parseDigits cs).map (fun n => (n : Int))

/-- Splitting a character list at every occurrence of a separator, as
Python `s.split(sep)` for a one-character separator. -/
def splitOnChar (sep : Char) : List Char → List (List Char)
  | [] => [[]]
  | c :: rest =>
    if c == sep then [] :: splitOnChar sep rest
    else
      match splitOnChar sep rest with
      | [] => [[c]]
      | g :: gs => (c :: g) :: gs

/-- Model of lines 70-71 of `data_loader.py`:
`split_age_range = raw_age_range.split('-')` followed by
`(int(split_age_range[0]) + int(split_age_range[1])) // 2`.
`none` models the `IndexError`/`ValueError` raised on malformed input. -/
def parseAgeRange (s : String) : Option Int :=
  match splitOnChar '-' s.data with
  | a :: b :: _ =>
    match pyParseInt (String.mk a), pyParseInt (String.mk b) with
    | some x, some y => some (Int.fdiv (x + y) 2)
    | _, _ => none
  | _ => none

/-- Boolean test that one list starts with another, elementwise. -/
def listStartsWith [BEq α] : List α → List α → Bool
  | [], _ => true
  | _ :: _, [] => false
  | a :: as, b :: bs => a == b && listStartsWith as bs

/-- Boolean test that `needle` occurs as a contiguous run inside `hay`,
as the Python operator `in` on strings. -/
def listContainsRun [BEq α] (needle : List α) : List α → Bool
  | [] => listStartsWith needle []
  | c :: rest => listStartsWith needle (c :: rest) || listContainsRun needle rest

/-- Model of the Python substring test `'Mischling' in dog_breed`. -/
def containsMischling (s : String) : Bool :=
  listContainsRun "Mischling".data s.data

/-- Modelled from the spec: `District` (file `districts.py` is not among
the sources).  An administrative region with a numeric id and a name;
equality and hashing are by id. -/
structure District where
  district_id : Int
  district_name : String

deriving DecidableEq

/-- Python `==` on districts: by id only (spec: equality is id-based). -/
def districtBeq (a b : District) : Bool :=
  a.district_id == b.district_id

/-- Modelled from the spec: `User` (file `userdata.py` is not among the
sources).  Integer id, age (midpoint of the age range), upper-cased
gender code, and the owning district. -/
structure User where
  user_id : Int
  age : Int
  gender : String
  district : District

deriving DecidableEq

/-- Modelled from the spec: the unweighted graph holds `User` objects and
breed-name strings as vertices (file `graphs.py` is not among the sources). -/
inductive DogVertex where
  | user (u : User)
  | breed (name : String)

deriving DecidableEq

/-- Modelled from the spec: an unweighted graph is a set of vertices plus a
set of undirected edges; an edge implies both endpoints are present (the
loader always adds the endpoints before the edge). -/
structure Graph where
  verts : List DogVertex
  edges : List (DogVertex × DogVertex)

deriving DecidableEq

def Graph.containsV (g : Graph) (v : DogVertex) : Bool :=
  g.verts.any (fun w => w == v)

def Graph.addVertex (g : Graph) (v : DogVertex) : Graph :=
  if g.containsV v then g else { g with verts := v :: g.verts }

/-- Undirected edge comparison: either orientation matches. -/
def edgeEq (e f : DogVertex × DogVertex) : Bool :=
  (e.1 == f.1 && e.2 == f.2) || (e.1 == f.2 && e.2 == f.1)

def Graph.hasEdge (g : Graph) (a b : DogVertex) : Bool :=
  g.edges.any (fun e => edgeEq e (a, b))

def Graph.addEdge (g : Graph) (a b : DogVertex) : Graph :=
  if g.hasEdge a b then g else { g with edges := (a, b) :: g.edges }

/-- Modelled from the spec: the weighted graph holds `District` objects and
breed-name strings as vertices. -/
inductive WVertex where
  | district (d : District)
  | breed (name : String)

deriving DecidableEq

/-- Python `==` on weighted-graph vertices: districts compare by id. -/
def wvBeq : WVertex → WVertex → Bool
  | .district a, .district b => districtBeq a b
  | .breed a, .breed b => a == b
  | _, _ => false

/-- Undirected weighted-edge key comparison under `wvBeq`. -/
def wkeyMatch (p q : WVertex × WVertex) : Bool :=
  (wvBeq p.1 q.1 && wvBeq p.2 q.2) || (wvBeq p.1 q.2 && wvBeq p.2 q.1)

/-- Modelled from the spec: a weighted graph is a set of vertices plus
undirected edges carrying a numeric weight; querying an absent edge
returns the default 0. -/
structure WeightedGraph where
  verts : List WVertex
  weights : List ((WVertex × WVertex) × Nat)

deriving DecidableEq

def WeightedGraph.contains (g : WeightedGraph) (v : WVertex) : Bool :=
  g.verts.any (fun w => wvBeq w v)

def WeightedGraph.addVertex (g : WeightedGraph) (v : WVertex) : WeightedGraph :=
  if g.contains v then g else { g with verts := v :: g.verts }

/-- Weight of the edge between `a` and `b`; 0 when the edge is absent. -/
def WeightedGraph.getWeight (g : WeightedGraph) (a b : WVertex) : Nat :=
  match g.weights.find? (fun e => wkeyMatch e.1 (a, b)) with
  | some e => e.2
  | none => 0

/-- Store a weight under an undirected key, replacing a matching entry. -/
def setWeight (key : WVertex × WVertex) (w : Nat) :
    List ((WVertex × WVertex) × Nat) → List ((WVertex × WVertex) × Nat)
  | [] => [(key, w)]
  | e :: rest =>
    if wkeyMatch e.1 key then (e.1, w) :: rest else e :: setWeight key w rest

def WeightedGraph.addEdge (g : WeightedGraph) (a b : WVertex) (w : Nat) :
    WeightedGraph :=
  { g with weights := setWeight (a, b) w g.weights }

/-- The dictionary `district_mapping = {target.district_id: target for target
in districts}` together with lookup by key: first district with the id. -/
def lookupDistrict (districts : List District) (i : Int) : Option District :=
  districts.find? (fun d => d.district_id == i)

/-- Lookup in the `users` dictionary (keyed by user id). -/
def lookupUser : List (Int × User) → Int → Option User
  | [], _ => none
  | (k, v) :: rest, i => if k == i then some v else lookupUser rest i

/-- Python dictionary assignment `users[user_id] = u`: replace the entry
with that key, else append. -/
def insertUser (i : Int) (u : User) : List (Int × User) → List (Int × User)
  | [] => [(i, u)]
  | (k, v) :: rest =>
    if k == i then (k, u) :: rest else (k, v) :: insertUser i u rest

/-- One parsed ownership row of the dog data file: `row[0]` (user id),
`row[1]` (raw age range), `row[2]` (gender), `row[4]` (district id),
`row[5]` (breed name).  The integer fields are already converted, as by
`int(row[0])` and `int(row[4])`. -/
structure OwnRow where
  user_id : Int
  raw_age_range : String
  gender : String
  district_id : Int
  breed : String

deriving DecidableEq

/-- Python exceptions that `load_dog_data` can raise (beyond I/O):
`KeyError` from `users[user_id]`, and `ValueError`/`IndexError` from the
age-range arithmetic, collapsed into `malformedAge`. -/
inductive LoadErr where
  | keyError
  | malformedAge

deriving DecidableEq

/-- Mutable state of the loop of `load_dog_data`: the two graphs under
construction and the internal `users` dictionary. -/
structure LoadState where
  dog_graph : Graph
  district_graph : WeightedGraph
  users : List (Int × User)

deriving DecidableEq

def initLoadState : LoadState :=
  { dog_graph := { verts := [], edges := [] }
  , district_graph := { verts := [], weights := [] }
  , users := [] }

/-- The body of the row loop of `load_dog_data` (lines 56-84 of
`data_loader.py`), for one row. -/
def processRow (districts : List District) (st : LoadState) (row : OwnRow) :
    Except LoadErr LoadState :=
  if pyBlank row.raw_age_range then .ok st
  else
    let gender := pyUpper row.gender
    if pyBlank gender then .ok st
    else
      match lookupDistrict districts row.district_id with
      | none => .ok st
      | some district =>
        let dog_breed := pyCapitalize row.breed
        if containsMischling dog_breed then .ok st
        else
          match parseAgeRange row.raw_age_range with
          | none => .error .malformedAge
          | some age =>
            let st1 :=
              if (lookupDistrict districts row.user_id).isNone then
                let u : User := ⟨row.user_id, age, gender, district⟩
                { st with
                  users := insertUser row.user_id u st.users
                  dog_graph := st.dog_graph.addVertex (.user u) }
              else st
            match lookupUser st1.users row.user_id with
            | none => .error .keyError
            | some user =>
              let g1 := st1.dog_graph.addVertex (.breed dog_breed)
              let g2 := g1.addEdge (.breed dog_breed) (.user user)
              let w0 := st1.district_graph
              -- the call-site guards `if not district_graph.contains(...)`
              -- coincide with the add-if-absent behaviour of `addVertex`
              let w1 := w0.addVertex (.district user.district)
              let w2 := w1.addVertex (.breed dog_breed)
              let cw := w2.getWeight (.district user.district) (.breed dog_breed)
              let w3 := w2.addEdge (.district user.district) (.breed dog_breed)
                          (cw + 1)
              .ok { dog_graph := g2, district_graph := w3, users := st1.users }

/-- `load_dog_data` up to its internal state: fold the loop body over the
parsed data rows, starting from empty graphs and an empty user map. -/
def loadDogState (districts : List District) (rows : List OwnRow) :
    Except LoadErr LoadState :=
  rows.foldlM (processRow districts) initLoadState

/-- `load_dog_data` (lines 39-85 of `data_loader.py`): returns the
unweighted owner/breed graph and the weighted district/breed graph. -/
def loadDogData (districts : List District) (rows : List OwnRow) :
    Except LoadErr (Graph × WeightedGraph) :=
  (loadDogState districts rows).map (fun st => (st.dog_graph, st.district_graph))

/-- Python `set.add` on districts: inserting an element equal (by id) to a
present one is a no-op, so the first-inserted object is retained. -/
def setAddDistrict (s : List District) (d : District) : List District :=
  if s.any (fun e => districtBeq e d) then s else s ++ [d]

/-- `load_district_data` (lines 88-100): one `District(int(row[1]), row[2])`
per parsed data row, collected into a set. -/
def loadDistrictData (rows : List (Int × String)) : List District :=
  rows.foldl (fun s r => setAddDistrict s ⟨r.1, r.2⟩) []

/-- Python exceptions of the distance loader: `KeyError` from
`district_lookup[...]` on an unknown id. -/
inductive DistErr where
  | keyError

deriving DecidableEq

/-- Python dictionary assignment keyed by a `District` (id-based `==`):
an existing entry keeps its original key object and gets the new value,
a new key is appended in insertion order. -/
def dinsert {α : Type} (k : District) (v : α) :
    List (District × α) → List (District × α)
  | [] => [(k, v)]
  | (k', v') :: rest =>
    if districtBeq k' k then (k', v) :: rest else (k', v') :: dinsert k v rest

/-- The inner loop of `get_raw_district_distances` (lines 125-131): build
the `district_distances` dictionary for one origin.  An unknown
destination id raises `KeyError` at `district_lookup[destination_id]`;
the guard `if not destination` can never trigger (`District` objects are
truthy); a destination equal to the origin is dropped. -/
def destFold (districts : List District) (origin : District)
    (acc : List (District × ℚ)) :
    List (Int × ℚ) → Except DistErr (List (District × ℚ))
  | [] => .ok acc
  | (did, dist) :: rest =>
    match lookupDistrict districts did with
    | none => .error .keyError
    | some destination =>
      if districtBeq destination origin then destFold districts origin acc rest
      else destFold districts origin (dinsert destination dist acc) rest

/-- `get_raw_district_distances` (lines 103-133): rows are already parsed
as (origin id, list of (destination id, kilometre distance)).  An unknown
origin id raises `KeyError` at `district_lookup[int(district_id)]`; the
guard `if not origin` can never trigger (`District` objects are truthy). -/
def getRawDistances (districts : List District)
    (rows : List (Int × List (Int × ℚ))) :
    Except DistErr (List (District × List (District × ℚ))) :=
  rows.foldlM
    (fun acc row =>
      match lookupDistrict districts row.1 with
      | none => .error .keyError
      | some origin =>
        (destFold districts origin [] row.2).map (fun dd => dinsert origin dd acc))
    []

/-- The nested distance table `dict[District, dict[District, float]]`. -/
abbrev DistTable := List (District × List (District × ℚ))

/-- Python exceptions of `normalize_district_distances`: the failed
`assert origin != destination`, the explicit `raise ValueError`, and the
`ZeroDivisionError` from `distance /= difference`. -/
inductive NormErr where
  | assertionError
  | valueError
  | zeroDivisionError

deriving DecidableEq

/-- All stored distance values of a table, in iteration order. -/
def distancesOf (t : DistTable) : List ℚ :=
  t.flatMap (fun o => o.2.map (fun p => p.2))

/-- `max_distance` after the first loop: running maximum started at 0. -/
def maxD (t : DistTable) : ℚ :=
  (distancesOf t).foldl max 0

/-- `min_distance` after the first loop: started at `math.inf`, so over a
non-empty table it is the minimum of the stored values.  (The empty case
is unreachable: an empty table fails the `max_distance == 0` check first.) -/
def minD (t : DistTable) : ℚ :=
  match distancesOf t with
  | [] => 0
  | d :: rest => rest.foldl min d

/-- Does some origin hold an entry for a destination equal (by id) to it?
Such a pair fails `assert origin != destination`. -/
def hasSelfPair (t : DistTable) : Bool :=
  t.any (fun o => o.2.any (fun p => districtBeq o.1 p.1))

/-- Apply a value transform to every stored distance. -/
def mapTable (f : ℚ → ℚ) (t : DistTable) : DistTable :=
  t.map (fun o => (o.1, o.2.map (fun p => (p.1, f p.2))))

/-- The `assert 0.0 <= distance <= 1.0` of the second loop, over the whole
transformed table. -/
def boundsAll (t : DistTable) : Bool :=
  t.all (fun o => o.2.all (fun p => decide (0 ≤ p.2) && decide (p.2 ≤ 1)))

/-- `normalize_district_distances` (lines 136-159).  First loop: the
self-pair assertion and the running min/max; then the `max_distance == 0`
guard (`raise ValueError`); then `difference = max - min`, which makes the
first `distance /= difference` of the second loop raise
`ZeroDivisionError` when max equals min (the table is non-empty there);
then the in-place rescale `1 - (d - min) / difference` with the final
bounds assertion.  On success the table holds the transformed values. -/
def normalizeDistances (t : DistTable) : Except NormErr DistTable :=
  if hasSelfPair t then .error .assertionError
  else if maxD t = 0 then .error .valueError
  else if maxD t - minD t = 0 then .error .zeroDivisionError
  else
    let t' := mapTable (fun v => 1 - (v - minD t) / (maxD t - minD t)) t
    if boundsAll t' then .ok t' else .error .assertionError

/-- Membership of a stored value: origin `o` maps destination `d` to `v`. -/
def tableMem (t : DistTable) (o d : District) (v : ℚ) : Prop :=
  ∃ l, (o, l) ∈ t ∧ (d, v) ∈ l

/-- The user map only ever holds ids that are absent from the district
lookup (the creation guard at line 72 checks `district_mapping`). -/
def UsersInv (ds : List District) (st : LoadState) : Prop :=
  ∀ i u, lookupUser st.users i = some u → lookupDistrict ds i = none

/-- Canonical key of a weighted-graph vertex under Python equality. -/
def wkey : WVertex → (Int ⊕ String)
  | .district d => Sum.inl d.district_id
  | .breed b => Sum.inr b

/-- A non-skipped row that resolves (by id) to district `d` and whose
capitalized breed name is `b`: exactly the rows counted by the weighted
district/breed edge (d, b). -/
def rowCounts (ds : List District) (d : District) (b : String)
    (row : OwnRow) : Bool :=
  !pyBlank row.raw_age_range && !pyBlank (pyUpper row.gender) &&
  (match lookupDistrict ds row.district_id with
   | some dr => districtBeq dr d
   | none => false) &&
  !containsMischling (pyCapitalize row.breed) &&
  (pyCapitalize row.breed == b)

/-- The transform applied to every stored value on the success path. -/
def normTransform (t : DistTable) (v : ℚ) : ℚ :=
  1 - (v - minD t) / (maxD t - minD t)

deriving instance DecidableEq for Except

/-- The exact failure condition of `normalize_district_distances`: a
self pair (failed assertion), a zero running maximum (explicit
`ValueError`), or equal running maximum and minimum (`ZeroDivisionError`
at the first `distance /= difference`). -/
def normalizeFails (t : DistTable) : Bool :=
  hasSelfPair t || (maxD t == 0) || (maxD t - minD t == 0)

/-! ### Helper lemmas -/

/-! ### Helper lemmas -/

lemma pyCharUpper_whitespace {c : Char} (h : c.isWhitespace = true) :
    (pyCharUpper c).isWhitespace = true := by
  simp only [Char.isWhitespace, Bool.or_eq_true, decide_eq_true_eq] at h
  rcases h with ((h | h) | h) | h <;> subst h <;> decide

lemma pyBlank_pyUpper {s : String} (h : pyBlank s = true) :
    pyBlank (pyUpper s) = true := by
  simp only [pyBlank, pyUpper, List.all_map, List.all_eq_true] at *
  intro c hc
  exact pyCharUpper_whitespace (h c hc)

lemma processRow_skip_mischling (ds : List District) (st : LoadState)
    (row : OwnRow) (h : containsMischling (pyCapitalize row.breed) = true) :
    processRow ds st row = .ok st := by
  by_cases h1 : pyBlank row.raw_age_range = true
  · simp [processRow, h1]
  · by_cases h2 : pyBlank (pyUpper row.gender) = true
    · simp [processRow, h1, h2]
    · cases hd : lookupDistrict ds row.district_id
      · simp [processRow, h1, h2, hd]
      · simp [processRow, h1, h2, hd, h]

lemma processRow_skip_blank_or_unknown (ds : List District) (st : LoadState)
    (row : OwnRow)
    (h : pyBlank row.raw_age_range = true ∨ pyBlank row.gender = true ∨
      lookupDistrict ds row.district_id = none) :
    processRow ds st row = .ok st := by
  rcases h with h | h | h
  · simp [processRow, h]
  · by_cases h1 : pyBlank row.raw_age_range = true
    · simp [processRow, h1]
    · simp [processRow, h1, pyBlank_pyUpper h]
  · by_cases h1 : pyBlank row.raw_age_range = true
    · simp [processRow, h1]
    · by_cases h2 : pyBlank (pyUpper row.gender) = true
      · simp [processRow, h1, h2]
      · simp [processRow, h1, h2, h]

lemma loadDogState_skip_middle (ds : List District) (pre post : List OwnRow)
    (row : OwnRow) (h : ∀ st, processRow ds st row = .ok st) :
    loadDogState ds (pre ++ row :: post) = loadDogState ds (pre ++ post) := by
  unfold loadDogState
  rw [List.foldlM_append, List.foldlM_append]
  cases hpre : List.foldlM (processRow ds) initLoadState pre with
  | error e => rfl
  | ok st =>
    show List.foldlM (processRow ds) st (row :: post) =
      List.foldlM (processRow ds) st post
    rw [List.foldlM_cons, h st]
    rfl

lemma lookupUser_insertUser_self (us : List (Int × User)) (i : Int) (u : User) :
    lookupUser (insertUser i u us) i = some u := by
  induction us with
  | nil => simp [insertUser, lookupUser]
  | cons p rest ih =>
    obtain ⟨k, v⟩ := p
    by_cases hk : k = i
    · simp [insertUser, lookupUser, hk]
    · simpa [insertUser, lookupUser, hk] using ih

lemma lookupUser_insertUser_ne (us : List (Int × User)) (i j : Int) (u : User)
    (h : j ≠ i) : lookupUser (insertUser i u us) j = lookupUser us j := by
  have hij : ¬ i = j := fun e => h e.symm
  induction us with
  | nil => simp [insertUser, lookupUser, hij]
  | cons p rest ih =>
    obtain ⟨k, v⟩ := p
    by_cases hk : k = i
    · subst hk
      simp [insertUser, lookupUser, hij]
    · by_cases hj : k = j
      · subst hj
        simp [insertUser, lookupUser, hk]
      · simpa [insertUser, lookupUser, hk, hj] using ih

lemma processRow_preserves_usersInv (ds : List District) (st st' : LoadState)
    (row : OwnRow) (hok : processRow ds st row = .ok st')
    (hinv : UsersInv ds st) : UsersInv ds st' := by
  by_cases h1 : pyBlank row.raw_age_range = true
  · simp [processRow, h1] at hok
    exact hok ▸ hinv
  · by_cases h2 : pyBlank (pyUpper row.gender) = true
    · simp [processRow, h1, h2] at hok
      exact hok ▸ hinv
    · cases hd : lookupDistrict ds row.district_id with
      | none =>
        simp [processRow, h1, h2, hd] at hok
        exact hok ▸ hinv
      | some d =>
        by_cases h4 : containsMischling (pyCapitalize row.breed) = true
        · simp [processRow, h1, h2, hd, h4] at hok
          exact hok ▸ hinv
        · cases h5 : parseAgeRange row.raw_age_range with
          | none => simp [processRow, h1, h2, hd, h4, h5] at hok
          | some age =>
            cases h6 : lookupDistrict ds row.user_id with
            | none =>
              rw [processRow] at hok
              simp only [h1, h2, hd, h4, h5, h6, Bool.false_eq_true, if_false,
                Option.isNone_none, if_true] at hok
              rw [lookupUser_insertUser_self] at hok
              simp only [Except.ok.injEq] at hok
              intro i u hu
              rw [← hok] at hu
              simp only at hu
              by_cases hij : i = row.user_id
              · exact hij ▸ h6
              · rw [lookupUser_insertUser_ne _ _ _ _ hij] at hu
                exact hinv i u hu
            | some dX =>
              rw [processRow] at hok
              simp only [h1, h2, hd, h4, h5, h6, Bool.false_eq_true, if_false,
                Option.isNone_some] at hok
              cases hu : lookupUser st.users row.user_id with
              | none => simp [hu] at hok
              | some u =>
                have := hinv _ _ hu
                rw [h6] at this
                exact absurd this (by simp)

lemma loadFold_usersInv (ds : List District) (rows : List OwnRow) :
    ∀ st0 st, UsersInv ds st0 →
      List.foldlM (processRow ds) st0 rows = .ok st → UsersInv ds st := by
  induction rows with
  | nil =>
    intro st0 st h0 hf
    exact Except.ok.inj hf ▸ h0
  | cons r rest ih =>
    intro st0 st h0 hf
    rw [List.foldlM_cons] at hf
    cases hr : processRow ds st0 r with
    | error e =>
      rw [hr] at hf
      exact absurd (show Except.error e = Except.ok st from hf) (by simp)
    | ok st1 =>
      rw [hr] at hf
      exact ih st1 st (processRow_preserves_usersInv ds st0 st1 r hr h0) hf

lemma loadDogState_usersInv (ds : List District) (rows : List OwnRow)
    (st : LoadState) (h : loadDogState ds rows = .ok st) : UsersInv ds st :=
  loadFold_usersInv ds rows initLoadState st
    (fun i u hu => by simp [initLoadState, lookupUser] at hu) h

/-- A fully valid, non-skipped row whose user id is a key of the district
lookup makes the loop body raise `KeyError` at `users[user_id]`. -/
lemma processRow_collision_keyError (ds : List District) (st : LoadState)
    (row : OwnRow) (d dX : District) (age : Int)
    (h1 : pyBlank row.raw_age_range = false)
    (h2 : pyBlank (pyUpper row.gender) = false)
    (h3 : lookupDistrict ds row.district_id = some d)
    (h4 : containsMischling (pyCapitalize row.breed) = false)
    (h5 : parseAgeRange row.raw_age_range = some age)
    (h6 : lookupDistrict ds row.user_id = some dX)
    (hu : lookupUser st.users row.user_id = none) :
    processRow ds st row = .error .keyError := by
  simp [processRow, h1, h2, h3, h4, h5, h6, hu]

lemma containsV_addVertex_self (g : Graph) (v : DogVertex) :
    (g.addVertex v).containsV v = true := by
  unfold Graph.addVertex
  split
  · assumption
  · simp [Graph.containsV]

lemma containsV_addVertex_mono (g : Graph) (v w : DogVertex)
    (h : g.containsV v = true) : (g.addVertex w).containsV v = true := by
  unfold Graph.addVertex
  split
  · exact h
  · simp only [Graph.containsV, List.any_cons, Bool.or_eq_true]
    exact Or.inr h

lemma containsV_addEdge (g : Graph) (a b v : DogVertex) :
    (g.addEdge a b).containsV v = g.containsV v := by
  unfold Graph.addEdge
  split <;> rfl

lemma addVertex_of_contains (g : Graph) (v : DogVertex)
    (h : g.containsV v = true) : g.addVertex v = g := by
  unfold Graph.addVertex
  simp [h]

lemma hasEdge_addEdge_self (g : Graph) (a b : DogVertex) :
    (g.addEdge a b).hasEdge a b = true := by
  unfold Graph.addEdge
  split
  · assumption
  · simp [Graph.hasEdge, edgeEq]

lemma addEdge_of_hasEdge (g : Graph) (a b : DogVertex)
    (h : g.hasEdge a b = true) : g.addEdge a b = g := by
  unfold Graph.addEdge
  simp [h]

lemma hasEdge_addVertex (g : Graph) (v a b : DogVertex) :
    (g.addVertex v).hasEdge a b = g.hasEdge a b := by
  unfold Graph.addVertex
  split <;> rfl

lemma insertUser_idem (us : List (Int × User)) (i : Int) (u : User) :
    insertUser i u (insertUser i u us) = insertUser i u us := by
  induction us with
  | nil => simp [insertUser]
  | cons p rest ih =>
    obtain ⟨k, v⟩ := p
    by_cases hk : k = i
    · simp [insertUser, hk]
    · simp [insertUser, hk, ih]

/-- Re-processing a row that was just processed succeeds again and leaves
the unweighted owner/breed graph unchanged (vertices and the single edge
are already present; the user map is re-written with the same record). -/
lemma processRow_again_same_dog_graph (ds : List District) (st st' : LoadState)
    (row : OwnRow) (h : processRow ds st row = .ok st') :
    ∃ st'', processRow ds st' row = .ok st'' ∧
      st''.dog_graph = st'.dog_graph := by
  by_cases h1 : pyBlank row.raw_age_range = true
  · simp only [processRow, h1, if_true, Except.ok.injEq] at h
    subst h
    exact ⟨st, by simp [processRow, h1], rfl⟩
  · by_cases h2 : pyBlank (pyUpper row.gender) = true
    · simp only [processRow, h1, h2, Bool.false_eq_true, if_false, if_true,
        Except.ok.injEq] at h
      subst h
      exact ⟨st, by simp [processRow, h1, h2], rfl⟩
    · cases hd : lookupDistrict ds row.district_id with
      | none =>
        simp only [processRow, h1, h2, hd, Bool.false_eq_true, if_false,
          Except.ok.injEq] at h
        subst h
        exact ⟨st, by simp [processRow, h1, h2, hd], rfl⟩
      | some d =>
        by_cases h4 : containsMischling (pyCapitalize row.breed) = true
        · simp only [processRow, h1, h2, hd, h4, Bool.false_eq_true, if_false,
            if_true, Except.ok.injEq] at h
          subst h
          exact ⟨st, by simp [processRow, h1, h2, hd, h4], rfl⟩
        · cases h5 : parseAgeRange row.raw_age_range with
          | none => simp [processRow, h1, h2, hd, h4, h5] at h
          | some age =>
            cases h6 : lookupDistrict ds row.user_id with
            | none =>
              rw [processRow] at h
              simp only [h1, h2, hd, h4, h5, h6, Bool.false_eq_true, if_false,
                Option.isNone_none, if_true, lookupUser_insertUser_self,
                Except.ok.injEq] at h
              subst h
              rw [processRow]
              simp only [h1, h2, hd, h4, h5, h6, Bool.false_eq_true, if_false,
                Option.isNone_none, if_true, insertUser_idem,
                lookupUser_insertUser_self]
              have e1 : (((st.dog_graph.addVertex
                  (.user ⟨row.user_id, age, pyUpper row.gender, d⟩)).addVertex
                  (.breed (pyCapitalize row.breed))).addEdge
                  (.breed (pyCapitalize row.breed))
                  (.user ⟨row.user_id, age, pyUpper row.gender, d⟩)).addVertex
                  (.user ⟨row.user_id, age, pyUpper row.gender, d⟩) =
                  ((st.dog_graph.addVertex
                  (.user ⟨row.user_id, age, pyUpper row.gender, d⟩)).addVertex
                  (.breed (pyCapitalize row.breed))).addEdge
                  (.breed (pyCapitalize row.breed))
                  (.user ⟨row.user_id, age, pyUpper row.gender, d⟩) :=
                addVertex_of_contains _ _ (by
                  rw [containsV_addEdge]
                  exact containsV_addVertex_mono _ _ _
                    (containsV_addVertex_self _ _))
              rw [e1]
              have e2 : (((st.dog_graph.addVertex
                  (.user ⟨row.user_id, age, pyUpper row.gender, d⟩)).addVertex
                  (.breed (pyCapitalize row.breed))).addEdge
                  (.breed (pyCapitalize row.breed))
                  (.user ⟨row.user_id, age, pyUpper row.gender, d⟩)).addVertex
                  (.breed (pyCapitalize row.breed)) =
                  ((st.dog_graph.addVertex
                  (.user ⟨row.user_id, age, pyUpper row.gender, d⟩)).addVertex
                  (.breed (pyCapitalize row.breed))).addEdge
                  (.breed (pyCapitalize row.breed))
                  (.user ⟨row.user_id, age, pyUpper row.gender, d⟩) :=
                addVertex_of_contains _ _ (by
                  rw [containsV_addEdge]
                  exact containsV_addVertex_self _ _)
              rw [e2]
              rw [addEdge_of_hasEdge _ _ _ (hasEdge_addEdge_self _ _ _)]
              exact ⟨_, rfl, rfl⟩
            | some dX =>
              rw [processRow] at h
              simp only [h1, h2, hd, h4, h5, h6, Bool.false_eq_true, if_false,
                Option.isNone_some] at h
              cases hu : lookupUser st.users row.user_id with
              | none => simp only [hu] at h; exact absurd h (by simp)
              | some u =>
                simp only [hu, Except.ok.injEq] at h
                subst h
                rw [processRow]
                simp only [h1, h2, hd, h4, h5, h6, Bool.false_eq_true, if_false,
                  Option.isNone_some, hu]
                have e2 : ((st.dog_graph.addVertex
                    (.breed (pyCapitalize row.breed))).addEdge
                    (.breed (pyCapitalize row.breed)) (.user u)).addVertex
                    (.breed (pyCapitalize row.breed)) =
                    (st.dog_graph.addVertex
                    (.breed (pyCapitalize row.breed))).addEdge
                    (.breed (pyCapitalize row.breed)) (.user u) :=
                  addVertex_of_contains _ _ (by
                    rw [containsV_addEdge]
                    exact containsV_addVertex_self _ _)
                rw [e2]
                rw [addEdge_of_hasEdge _ _ _ (hasEdge_addEdge_self _ _ _)]
                exact ⟨_, rfl, rfl⟩

lemma wvBeq_iff (a b : WVertex) : wvBeq a b = true ↔ wkey a = wkey b := by
  cases a <;> cases b <;> simp [wvBeq, wkey, districtBeq]

lemma wkeyMatch_iff (p q : WVertex × WVertex) :
    wkeyMatch p q = true ↔
      (wkey p.1 = wkey q.1 ∧ wkey p.2 = wkey q.2) ∨
      (wkey p.1 = wkey q.2 ∧ wkey p.2 = wkey q.1) := by
  simp [wkeyMatch, wvBeq_iff]

lemma wkeyMatch_symm {p q : WVertex × WVertex} (h : wkeyMatch p q = true) :
    wkeyMatch q p = true := by
  rw [wkeyMatch_iff] at *
  rcases h with ⟨h1, h2⟩ | ⟨h1, h2⟩
  · exact Or.inl ⟨h1.symm, h2.symm⟩
  · exact Or.inr ⟨h2.symm, h1.symm⟩

lemma wkeyMatch_trans {p q r : WVertex × WVertex} (h1 : wkeyMatch p q = true)
    (h2 : wkeyMatch q r = true) : wkeyMatch p r = true := by
  rw [wkeyMatch_iff] at *
  rcases h1 with ⟨a1, a2⟩ | ⟨a1, a2⟩ <;> rcases h2 with ⟨b1, b2⟩ | ⟨b1, b2⟩
  · exact Or.inl ⟨a1.trans b1, a2.trans b2⟩
  · exact Or.inr ⟨a1.trans b1, a2.trans b2⟩
  · exact Or.inr ⟨a1.trans b2, a2.trans b1⟩
  · exact Or.inl ⟨a1.trans b2, a2.trans b1⟩

lemma getWeight_congr (g : WeightedGraph) {a b c d : WVertex}
    (h : wkeyMatch (a, b) (c, d) = true) :
    g.getWeight a b = g.getWeight c d := by
  unfold WeightedGraph.getWeight
  have : (fun (e : (WVertex × WVertex) × Nat) => wkeyMatch e.1 (a, b)) =
      (fun e => wkeyMatch e.1 (c, d)) := by
    funext e
    cases he : wkeyMatch e.1 (a, b) with
    | true => exact (wkeyMatch_trans he h).symm
    | false =>
      cases he2 : wkeyMatch e.1 (c, d) with
      | true => exact absurd (wkeyMatch_trans he2 (wkeyMatch_symm h)) (by simp [he])
      | false => rfl
  rw [this]

lemma getWeight_addVertexW (g : WeightedGraph) (v a b : WVertex) :
    (g.addVertex v).getWeight a b = g.getWeight a b := by
  unfold WeightedGraph.addVertex
  split <;> rfl

lemma getWeight_addEdge_match (g : WeightedGraph) {a b c d : WVertex}
    (w : Nat) (h : wkeyMatch (a, b) (c, d) = true) :
    (g.addEdge a b w).getWeight c d = w := by
  unfold WeightedGraph.addEdge WeightedGraph.getWeight
  induction g.weights with
  | nil => simp [setWeight, h]
  | cons e rest ih =>
    by_cases he : wkeyMatch e.1 (a, b) = true
    · simp only [setWeight, he, if_true]
      simp [List.find?, wkeyMatch_trans he h]
    · simp only [setWeight, he, if_false]
      have hne : wkeyMatch e.1 (c, d) = false := by
        cases hcd : wkeyMatch e.1 (c, d) with
        | true => exact absurd (wkeyMatch_trans hcd (wkeyMatch_symm h)) (by simp [he])
        | false => rfl
      simpa [List.find?, hne] using ih

lemma getWeight_addEdge_other (g : WeightedGraph) {a b c d : WVertex}
    (w : Nat) (h : wkeyMatch (a, b) (c, d) = false) :
    (g.addEdge a b w).getWeight c d = g.getWeight c d := by
  unfold WeightedGraph.addEdge WeightedGraph.getWeight
  induction g.weights with
  | nil => simp [setWeight, h]
  | cons e rest ih =>
    by_cases he : wkeyMatch e.1 (a, b) = true
    · have hne : wkeyMatch e.1 (c, d) = false := by
        cases hcd : wkeyMatch e.1 (c, d) with
        | true =>
          have := wkeyMatch_trans (wkeyMatch_symm he) hcd
          exact absurd this (by simp [h])
        | false => rfl
      simp [setWeight, he, List.find?, hne]
    · by_cases hcd : wkeyMatch e.1 (c, d) = true
      · simp [setWeight, he, List.find?, hcd]
      · simpa [setWeight, he, List.find?, hcd] using ih

lemma processRow_weight (ds : List District) (st st' : LoadState)
    (row : OwnRow) (d : District) (b : String)
    (hok : processRow ds st row = .ok st') (hinv : UsersInv ds st) :
    st'.district_graph.getWeight (.district d) (.breed b) =
      st.district_graph.getWeight (.district d) (.breed b) +
        (if rowCounts ds d b row then 1 else 0) := by
  by_cases h1 : pyBlank row.raw_age_range = true
  · simp only [processRow, h1, if_true, Except.ok.injEq] at hok
    subst hok
    simp [rowCounts, h1]
  · by_cases h2 : pyBlank (pyUpper row.gender) = true
    · simp only [processRow, h1, h2, Bool.false_eq_true, if_false, if_true,
        Except.ok.injEq] at hok
      subst hok
      simp [rowCounts, h1, h2]
    · cases hd : lookupDistrict ds row.district_id with
      | none =>
        simp only [processRow, h1, h2, hd, Bool.false_eq_true, if_false,
          Except.ok.injEq] at hok
        subst hok
        simp [rowCounts, h1, h2, hd]
      | some dr =>
        by_cases h4 : containsMischling (pyCapitalize row.breed) = true
        · simp only [processRow, h1, h2, hd, h4, Bool.false_eq_true, if_false,
            if_true, Except.ok.injEq] at hok
          subst hok
          simp [rowCounts, h1, h2, hd, h4]
        · cases h5 : parseAgeRange row.raw_age_range with
          | none => simp [processRow, h1, h2, hd, h4, h5] at hok
          | some age =>
            have hcount : rowCounts ds d b row =
                (districtBeq dr d && (pyCapitalize row.breed == b)) := by
              simp [rowCounts, h1, h2, hd, h4, Bool.and_assoc]
            cases h6 : lookupDistrict ds row.user_id with
            | none =>
              rw [processRow] at hok
              simp only [h1, h2, hd, h4, h5, h6, Bool.false_eq_true, if_false,
                Option.isNone_none, if_true, lookupUser_insertUser_self,
                Except.ok.injEq] at hok
              subst hok
              simp only
              rw [getWeight_addVertexW]
              cases hm : wkeyMatch
                  (.district dr, .breed (pyCapitalize row.breed))
                  (.district d, .breed b) with
              | true =>
                rw [getWeight_addEdge_match _ _ hm]
                have hcd : districtBeq dr d = true ∧
                    (pyCapitalize row.breed == b) = true := by
                  rw [wkeyMatch_iff] at hm
                  rcases hm with ⟨m1, m2⟩ | ⟨m1, m2⟩ <;>
                    simp only [wkey, Sum.inl.injEq, Sum.inr.injEq] at m1 m2
                  · exact ⟨by simp [districtBeq, m1], by simp [m2]⟩
                  · exact absurd m1 (by simp)
                rw [hcount]
                rw [hcd.1, hcd.2]
                have : st.district_graph.getWeight (.district d) (.breed b) =
                    st.district_graph.getWeight (.district dr)
                      (.breed (pyCapitalize row.breed)) :=
                  getWeight_congr _ (wkeyMatch_symm hm)
                rw [this]
                simp [getWeight_addVertexW]
              | false =>
                rw [getWeight_addEdge_other _ _ hm]
                rw [getWeight_addVertexW, getWeight_addVertexW]
                have : rowCounts ds d b row = false := by
                  rw [hcount]
                  cases hb1 : districtBeq dr d with
                  | false => rfl
                  | true =>
                    cases hb2 : pyCapitalize row.breed == b with
                    | false => rfl
                    | true =>
                      exfalso
                      have : wkeyMatch
                          (.district dr, .breed (pyCapitalize row.breed))
                          (.district d, .breed b) = true := by
                        rw [wkeyMatch_iff]
                        refine Or.inl ⟨?_, ?_⟩ <;>
                          simp only [wkey, Sum.inl.injEq, Sum.inr.injEq]
                        · simpa [districtBeq] using hb1
                        · simpa using hb2
                      simp [this] at hm
                rw [this]
                simp
            | some dX =>
              rw [processRow] at hok
              simp only [h1, h2, hd, h4, h5, h6, Bool.false_eq_true, if_false,
                Option.isNone_some] at hok
              cases hu : lookupUser st.users row.user_id with
              | none => simp only [hu] at hok; exact absurd hok (by simp)
              | some u =>
                exfalso
                have := hinv _ _ hu
                rw [h6] at this
                exact absurd this (by simp)

lemma loadFold_weight (ds : List District) (d : District) (b : String) :
    ∀ (rows : List OwnRow) (st0 st : LoadState), UsersInv ds st0 →
      List.foldlM (processRow ds) st0 rows = .ok st →
      st.district_graph.getWeight (.district d) (.breed b) =
        st0.district_graph.getWeight (.district d) (.breed b) +
          rows.countP (rowCounts ds d b) := by
  intro rows
  induction rows with
  | nil =>
    intro st0 st h0 hf
    rw [Except.ok.inj hf]
    simp
  | cons r rest ih =>
    intro st0 st h0 hf
    rw [List.foldlM_cons] at hf
    cases hr : processRow ds st0 r with
    | error e =>
      rw [hr] at hf
      exact absurd (show Except.error e = Except.ok st from hf) (by simp)
    | ok st1 =>
      rw [hr] at hf
      have hw := processRow_weight ds st0 st1 r d b hr h0
      have := ih st1 st (processRow_preserves_usersInv ds st0 st1 r hr h0) hf
      rw [this, hw, List.countP_cons]
      by_cases hc : rowCounts ds d b r = true
      · simp only [hc, if_true, List.countP_cons_of_pos]
        omega
      · simp [hc]

lemma find?_setAddDistrict_found (s : List District) (d : District) (i : Int)
    (dd : District) (h : s.find? (fun e => e.district_id == i) = some dd) :
    (setAddDistrict s d).find? (fun e => e.district_id == i) = some dd := by
  unfold setAddDistrict
  split
  · exact h
  · simp [List.find?_append, h]

lemma find?_setAddDistrict_none (s : List District) (d : District) (i : Int)
    (hne : (d.district_id == i) = false)
    (h : s.find? (fun e => e.district_id == i) = none) :
    (setAddDistrict s d).find? (fun e => e.district_id == i) = none := by
  unfold setAddDistrict
  split
  · exact h
  · simp [List.find?_append, h, List.find?, hne]

lemma setAddDistrict_nodup (s : List District) (d : District)
    (h : s.Pairwise (fun a b => a.district_id ≠ b.district_id)) :
    (setAddDistrict s d).Pairwise (fun a b => a.district_id ≠ b.district_id) := by
  unfold setAddDistrict
  split
  · exact h
  · rename_i hany
    rw [List.pairwise_append]
    refine ⟨h, by simp, ?_⟩
    intro a ha e he
    simp only [List.mem_singleton] at he
    subst he
    simp only [List.any_eq_true, not_exists, not_and, Bool.not_eq_true] at hany
    have := hany a ha
    simp only [districtBeq, beq_eq_false_iff_ne, ne_eq] at this
    exact this

lemma loadFoldDistrict_stable (rows : List (Int × String)) :
    ∀ (init : List District) (i : Int) (dd : District),
      init.find? (fun e => e.district_id == i) = some dd →
      (rows.foldl (fun s r => setAddDistrict s ⟨r.1, r.2⟩) init).find?
        (fun e => e.district_id == i) = some dd := by
  induction rows with
  | nil => intro init i dd h; exact h
  | cons r rest ih =>
    intro init i dd h
    rw [List.foldl_cons]
    exact ih _ i dd (find?_setAddDistrict_found init ⟨r.1, r.2⟩ i dd h)

lemma loadFoldDistrict_new (rows : List (Int × String)) :
    ∀ (init : List District) (i : Int) (r₀ : Int × String),
      init.find? (fun e => e.district_id == i) = none →
      rows.find? (fun r => r.1 == i) = some r₀ →
      (rows.foldl (fun s r => setAddDistrict s ⟨r.1, r.2⟩) init).find?
        (fun e => e.district_id == i) = some ⟨i, r₀.2⟩ := by
  induction rows with
  | nil => intro init i r₀ _ hf; simp [List.find?] at hf
  | cons r rest ih =>
    intro init i r₀ hnone hf
    rw [List.foldl_cons]
    by_cases hr : (r.1 == i) = true
    · have hr0 : r₀ = r := by
        have hstep : List.find? (fun r => r.1 == i) (r :: rest) = some r :=
          List.find?_cons_of_pos _ hr
        rw [hstep] at hf
        exact (Option.some.inj hf).symm
      subst hr0
      have hieq : r₀.1 = i := by simpa using hr
      have hadd : (setAddDistrict init ⟨r₀.1, r₀.2⟩).find?
          (fun e => e.district_id == i) = some ⟨i, r₀.2⟩ := by
        unfold setAddDistrict
        split
        · rename_i hany
          exfalso
          simp only [List.any_eq_true] at hany
          obtain ⟨e, he, hbeq⟩ := hany
          simp only [districtBeq, beq_iff_eq] at hbeq
          have : (e.district_id == i) = true := by
            simp [hbeq, hieq]
          have hnone2 := List.find?_eq_none.mp hnone e he
          simp [this] at hnone2
        · rw [List.find?_append, hnone]
          simp [List.find?, hieq]
      exact loadFoldDistrict_stable rest _ i _ hadd
    · have hstep : List.find? (fun r => r.1 == i) (r :: rest) =
          List.find? (fun r => r.1 == i) rest :=
        List.find?_cons_of_neg _ (by simpa using hr)
      rw [hstep] at hf
      refine ih _ i r₀ ?_ hf
      exact find?_setAddDistrict_none init ⟨r.1, r.2⟩ i (by simpa using hr) hnone

lemma loadFoldDistrict_nodup (rows : List (Int × String)) :
    ∀ (init : List District),
      init.Pairwise (fun a b => a.district_id ≠ b.district_id) →
      (rows.foldl (fun s r => setAddDistrict s ⟨r.1, r.2⟩) init).Pairwise
        (fun a b => a.district_id ≠ b.district_id) := by
  induction rows with
  | nil => intro init h; exact h
  | cons r rest ih =>
    intro init h
    rw [List.foldl_cons]
    exact ih _ (setAddDistrict_nodup init ⟨r.1, r.2⟩ h)

lemma foldl_max_init (l : List ℚ) : ∀ a : ℚ, a ≤ l.foldl max a := by
  induction l with
  | nil => intro a; exact le_refl a
  | cons b l ih =>
    intro a
    exact le_trans (le_max_left a b) (ih (max a b))

lemma mem_le_foldl_max (l : List ℚ) : ∀ (a v : ℚ), v ∈ l → v ≤ l.foldl max a := by
  induction l with
  | nil => intro a v hv; exact absurd hv (by simp)
  | cons b l ih =>
    intro a v hv
    rcases List.mem_cons.mp hv with h | h
    · subst h
      exact le_trans (le_max_right a v) (foldl_max_init l (max a v))
    · exact ih (max a b) v h

lemma foldl_min_init (l : List ℚ) : ∀ a : ℚ, l.foldl min a ≤ a := by
  induction l with
  | nil => intro a; exact le_refl a
  | cons b l ih =>
    intro a
    exact le_trans (ih (min a b)) (min_le_left a b)

lemma foldl_min_le_mem (l : List ℚ) : ∀ (a v : ℚ), v ∈ l → l.foldl min a ≤ v := by
  induction l with
  | nil => intro a v hv; exact absurd hv (by simp)
  | cons b l ih =>
    intro a v hv
    rcases List.mem_cons.mp hv with h | h
    · subst h
      exact le_trans (foldl_min_init l (min a v)) (min_le_right a v)
    · exact ih (min a b) v h

lemma mem_distancesOf {t : DistTable} {o d : District} {l : List (District × ℚ)}
    {v : ℚ} (hol : (o, l) ∈ t) (hdv : (d, v) ∈ l) : v ∈ distancesOf t := by
  unfold distancesOf
  rw [List.mem_flatMap]
  exact ⟨(o, l), hol, List.mem_map_of_mem _ hdv⟩

lemma le_maxD {t : DistTable} {v : ℚ} (h : v ∈ distancesOf t) : v ≤ maxD t :=
  mem_le_foldl_max _ 0 v h

lemma minD_le {t : DistTable} {v : ℚ} (h : v ∈ distancesOf t) : minD t ≤ v := by
  unfold minD
  cases hd : distancesOf t with
  | nil => rw [hd] at h; exact absurd h (by simp)
  | cons d0 rest =>
    rw [hd] at h
    rcases List.mem_cons.mp h with h | h
    · subst h
      exact foldl_min_init rest v
    · exact foldl_min_le_mem rest d0 v h

lemma distancesOf_ne_nil_of_maxD_ne {t : DistTable} (h : maxD t ≠ 0) :
    distancesOf t ≠ [] := by
  intro he
  apply h
  unfold maxD
  rw [he]
  rfl

lemma minD_le_maxD {t : DistTable} (h : maxD t ≠ 0) : minD t ≤ maxD t := by
  cases hd : distancesOf t with
  | nil => exact absurd hd (distancesOf_ne_nil_of_maxD_ne h)
  | cons d0 rest =>
    have h0 : d0 ∈ distancesOf t := by rw [hd]; exact List.mem_cons_self _ _
    exact le_trans (minD_le h0) (le_maxD h0)

lemma tableMem_mapTable (f : ℚ → ℚ) {t : DistTable} {o d : District} {v : ℚ}
    (h : tableMem t o d v) : tableMem (mapTable f t) o d (f v) := by
  obtain ⟨l, hl, hv⟩ := h
  refine ⟨l.map (fun p => (p.1, f p.2)), ?_, ?_⟩
  · exact List.mem_map_of_mem _ hl
  · exact List.mem_map_of_mem _ hv

lemma boundsAll_of_bounds {t : DistTable} (f : ℚ → ℚ)
    (h : ∀ v ∈ distancesOf t, 0 ≤ f v ∧ f v ≤ 1) :
    boundsAll (mapTable f t) = true := by
  unfold boundsAll mapTable
  rw [List.all_map, List.all_eq_true]
  intro o ho
  rw [Function.comp_apply, List.all_map, List.all_eq_true]
  intro p hp
  have hv : p.2 ∈ distancesOf t := mem_distancesOf ho hp
  obtain ⟨hb1, hb2⟩ := h p.2 hv
  simp [hb1, hb2]

lemma boundsAll_mem {t' : DistTable} (h : boundsAll t' = true) {o d : District}
    {l : List (District × ℚ)} {v : ℚ} (hol : (o, l) ∈ t') (hdv : (d, v) ∈ l) :
    0 ≤ v ∧ v ≤ 1 := by
  unfold boundsAll at h
  rw [List.all_eq_true] at h
  have h2 := h (o, l) hol
  rw [List.all_eq_true] at h2
  have h3 := h2 (d, v) hdv
  simpa using h3

lemma normTransform_bounds {t : DistTable} (hmax : maxD t ≠ 0)
    (hdiff : maxD t - minD t ≠ 0) {v : ℚ} (hv : v ∈ distancesOf t) :
    0 ≤ normTransform t v ∧ normTransform t v ≤ 1 := by
  have hpos : 0 < maxD t - minD t :=
    lt_of_le_of_ne (by linarith [minD_le_maxD hmax]) (Ne.symm hdiff)
  have h1 : 0 ≤ (v - minD t) / (maxD t - minD t) :=
    div_nonneg (by linarith [minD_le hv]) (le_of_lt hpos)
  have h2 : (v - minD t) / (maxD t - minD t) ≤ 1 := by
    rw [div_le_one hpos]
    linarith [le_maxD hv]
  unfold normTransform
  constructor <;> linarith

lemma normalizeDistances_ok (t : DistTable) (hs : hasSelfPair t = false)
    (hm : maxD t ≠ 0) (hd : maxD t - minD t ≠ 0) :
    normalizeDistances t = .ok (mapTable (normTransform t) t) := by
  unfold normalizeDistances
  rw [hs]
  simp only [Bool.false_eq_true, if_false, hm, if_false, hd, if_false]
  have hb : boundsAll (mapTable (fun v => 1 - (v - minD t) / (maxD t - minD t)) t)
      = true :=
    boundsAll_of_bounds _ (fun v hv => normTransform_bounds hm hd hv)
  rw [hb]
  rfl

/-! ### Claims -/

/-- C3: every ownership row whose capitalized breed name contains the
mixed-breed marker `Mischling` is skipped by `load_dog_data` without
error: inserting such a row anywhere into the input leaves the whole
result (both graphs and the internal user map) unchanged, even when all
other fields of the row are valid. -/
theorem c3_mischling_row_excluded (ds : List District) (pre post : List OwnRow)
    (row : OwnRow) (h : containsMischling (pyCapitalize row.breed) = true) :
    loadDogState ds (pre ++ row :: post) = loadDogState ds (pre ++ post) :=
  loadDogState_skip_middle ds pre post row
    (fun st => processRow_skip_mischling ds st row h)

theorem c3_mischling_row_excluded_witness :
    containsMischling (pyCapitalize "mischling, klein") = true ∧
    loadDogState [⟨10, "Altstadt"⟩] [⟨1, "20-29", "f", 10, "mischling, klein"⟩] =
      loadDogState [⟨10, "Altstadt"⟩] [] :=
  ⟨by decide,
   c3_mischling_row_excluded [⟨10, "Altstadt"⟩] [] []
     ⟨1, "20-29", "f", 10, "mischling, klein"⟩ (by decide)⟩

/-- C7: in `load_dog_data`, a row with a blank age-range field, a blank
gender field, or a district id that does not resolve in the district
lookup is skipped without raising: the loop body returns the state (both
graphs and the internal user map) exactly unchanged. -/
theorem c7_blank_or_unknown_row_skipped (ds : List District) (st : LoadState)
    (row : OwnRow)
    (h : pyBlank row.raw_age_range = true ∨ pyBlank row.gender = true ∨
      lookupDistrict ds row.district_id = none) :
    processRow ds st row = .ok st :=
  processRow_skip_blank_or_unknown ds st row h

theorem c7_blank_or_unknown_row_skipped_witness :
    pyBlank "   " = true ∧
    processRow [⟨10, "Altstadt"⟩] initLoadState ⟨2, "30-39", "   ", 10, "Labrador"⟩ =
      .ok initLoadState :=
  ⟨by decide,
   c7_blank_or_unknown_row_skipped [⟨10, "Altstadt"⟩] initLoadState
     ⟨2, "30-39", "   ", 10, "Labrador"⟩ (Or.inr (Or.inl (by decide)))⟩

/-- C4, counterexample: two non-skipped rows with the same user id 1
(absent from the district lookup).  After the first row the stored
record is `User(1, 24, "F", Altstadt)`; after the second row it has been
replaced by `User(1, 44, "M", Seefeld)`, so the record created on first
sight is not retained. -/
theorem c4_user_replaced_counterexample :
    (loadDogState [⟨10, "Altstadt"⟩, ⟨20, "Seefeld"⟩]
        [⟨1, "20-29", "f", 10, "Labrador"⟩]).map
      (fun st => lookupUser st.users 1) =
      .ok (some ⟨1, 24, "F", ⟨10, "Altstadt"⟩⟩) ∧
    (loadDogState [⟨10, "Altstadt"⟩, ⟨20, "Seefeld"⟩]
        [⟨1, "20-29", "f", 10, "Labrador"⟩, ⟨1, "40-49", "m", 20, "Poodle"⟩]).map
      (fun st => lookupUser st.users 1) =
      .ok (some ⟨1, 44, "M", ⟨20, "Seefeld"⟩⟩) ∧
    (⟨1, 24, "F", ⟨10, "Altstadt"⟩⟩ : User) ≠ ⟨1, 44, "M", ⟨20, "Seefeld"⟩⟩ :=
  ⟨rfl, rfl, by decide⟩

/-- C4, amended: because the creation guard at line 72 checks the district
lookup instead of the user map, a User record is built and stored afresh
on EVERY non-skipped row whose user id is not a district id.  The map is
keyed by user id, and after such a row it holds the record built from
that row (the latest row wins, not the first). -/
theorem c4_user_rebuilt_every_row (ds : List District) (st : LoadState)
    (row : OwnRow) (d : District) (age : Int)
    (h1 : pyBlank row.raw_age_range = false)
    (h2 : pyBlank (pyUpper row.gender) = false)
    (h3 : lookupDistrict ds row.district_id = some d)
    (h4 : containsMischling (pyCapitalize row.breed) = false)
    (h5 : parseAgeRange row.raw_age_range = some age)
    (h6 : lookupDistrict ds row.user_id = none) :
    (processRow ds st row).map (fun st' => lookupUser st'.users row.user_id) =
      .ok (some ⟨row.user_id, age, pyUpper row.gender, d⟩) := by
  rw [processRow]
  simp only [h1, h2, h3, h4, h5, h6, Bool.false_eq_true, if_false,
    Option.isNone_none, if_true]
  rw [lookupUser_insertUser_self]
  simp [Except.map, lookupUser_insertUser_self]

theorem c4_user_rebuilt_every_row_witness :
    (processRow [⟨10, "Altstadt"⟩]
        { dog_graph := { verts := [], edges := [] }
        , district_graph := { verts := [], weights := [] }
        , users := [(1, ⟨1, 24, "F", ⟨10, "Altstadt"⟩⟩)] }
        ⟨1, "40-49", "m", 10, "Poodle"⟩).map
      (fun st' => lookupUser st'.users 1) =
      .ok (some ⟨1, 44, "M", ⟨10, "Altstadt"⟩⟩) :=
  c4_user_rebuilt_every_row [⟨10, "Altstadt"⟩] _ ⟨1, "40-49", "m", 10, "Poodle"⟩
    ⟨10, "Altstadt"⟩ 44 (by decide) (by decide) (by decide) (by decide)
    (by decide) (by decide)

/-- C10: when processing reaches an otherwise-valid, non-skipped ownership
row whose user id is numerically present as a key in the district lookup,
`load_dog_data` raises an uncaught `KeyError` at the `users[user_id]`
access (line 75): the whole call fails, the row is neither processed into
the graphs nor silently skipped. -/
theorem c10_colliding_user_id_keyerror (ds : List District)
    (pre post : List OwnRow) (row : OwnRow) (st : LoadState)
    (d dX : District) (age : Int)
    (hpre : loadDogState ds pre = .ok st)
    (h1 : pyBlank row.raw_age_range = false)
    (h2 : pyBlank (pyUpper row.gender) = false)
    (h3 : lookupDistrict ds row.district_id = some d)
    (h4 : containsMischling (pyCapitalize row.breed) = false)
    (h5 : parseAgeRange row.raw_age_range = some age)
    (h6 : lookupDistrict ds row.user_id = some dX) :
    loadDogData ds (pre ++ row :: post) = .error .keyError := by
  have hinv := loadDogState_usersInv ds pre st hpre
  have hu : lookupUser st.users row.user_id = none := by
    cases hu : lookupUser st.users row.user_id with
    | none => rfl
    | some u =>
      have := hinv _ _ hu
      rw [h6] at this
      exact absurd this (by simp)
  have hrow := processRow_collision_keyError ds st row d dX age
    h1 h2 h3 h4 h5 h6 hu
  unfold loadDogData loadDogState
  rw [List.foldlM_append]
  unfold loadDogState at hpre
  rw [hpre]
  show (List.foldlM (processRow ds) st (row :: post)).map _ = _
  rw [List.foldlM_cons, hrow]
  rfl

theorem c10_colliding_user_id_keyerror_witness :
    loadDogData [⟨1, "Altstadt"⟩, ⟨10, "Seefeld"⟩]
      [⟨1, "20-29", "f", 10, "Labrador"⟩] = .error .keyError :=
  c10_colliding_user_id_keyerror [⟨1, "Altstadt"⟩, ⟨10, "Seefeld"⟩] [] []
    ⟨1, "20-29", "f", 10, "Labrador"⟩ initLoadState ⟨10, "Seefeld"⟩
    ⟨1, "Altstadt"⟩ 24 rfl (by decide) (by decide) (by decide) (by decide)
    (by decide) (by decide)

/-- C9: edge multiplicity in the unweighted owner/breed graph is not
tracked: processing two identical valid ownership rows yields exactly the
same unweighted graph as processing one such row (one owner-breed edge,
not two). -/
theorem c9_duplicate_row_same_unweighted_graph (ds : List District)
    (row : OwnRow) (g : Graph) (w : WeightedGraph)
    (h : loadDogData ds [row] = .ok (g, w)) :
    ∃ w', loadDogData ds [row, row] = .ok (g, w') := by
  unfold loadDogData loadDogState at h ⊢
  cases h1 : processRow ds initLoadState row with
  | error e =>
    rw [List.foldlM_cons, h1] at h
    exact absurd (show Except.error e = Except.ok (g, w) from h) (by simp)
  | ok st' =>
    rw [List.foldlM_cons, h1] at h
    have h2 : (Except.ok (st'.dog_graph, st'.district_graph) :
        Except LoadErr (Graph × WeightedGraph)) = Except.ok (g, w) := h
    obtain ⟨hg, hw⟩ := Prod.mk.inj (Except.ok.inj h2)
    obtain ⟨st'', hs, hdog⟩ :=
      processRow_again_same_dog_graph ds initLoadState st' row h1
    refine ⟨st''.district_graph, ?_⟩
    rw [List.foldlM_cons, h1]
    show (List.foldlM (processRow ds) st' [row]).map _ = _
    rw [List.foldlM_cons, hs]
    show Except.ok (st''.dog_graph, st''.district_graph) = _
    rw [hdog, hg]

theorem c9_duplicate_row_same_unweighted_graph_witness :
    ∃ w', loadDogData [⟨10, "Altstadt"⟩]
        [⟨1, "20-29", "f", 10, "Labrador"⟩, ⟨1, "20-29", "f", 10, "Labrador"⟩] =
      .ok ({ verts := [.breed "Labrador", .user ⟨1, 24, "F", ⟨10, "Altstadt"⟩⟩]
           , edges := [(.breed "Labrador", .user ⟨1, 24, "F", ⟨10, "Altstadt"⟩⟩)] }, w') :=
  c9_duplicate_row_same_unweighted_graph [⟨10, "Altstadt"⟩]
    ⟨1, "20-29", "f", 10, "Labrador"⟩ _
    { verts := [.breed "Labrador", .district ⟨10, "Altstadt"⟩]
    , weights := [((.district ⟨10, "Altstadt"⟩, .breed "Labrador"), 1)] } rfl

/-- C6: after a successful `load_dog_data`, the weight of the edge
(district d, breed b) in the weighted district/breed graph equals the
number of non-skipped input rows whose resolved district equals `d` (by
id) and whose capitalized breed name is `b`, accumulated from the
default weight 0. -/
theorem c6_weight_counts_rows (ds : List District) (rows : List OwnRow)
    (g : Graph) (w : WeightedGraph) (d : District) (b : String)
    (h : loadDogData ds rows = .ok (g, w)) :
    w.getWeight (.district d) (.breed b) = rows.countP (rowCounts ds d b) := by
  unfold loadDogData at h
  cases hst : loadDogState ds rows with
  | error e =>
    rw [hst] at h
    exact absurd (show Except.error e = Except.ok (g, w) from h) (by simp)
  | ok st =>
    rw [hst] at h
    have h2 : (Except.ok (st.dog_graph, st.district_graph) :
        Except LoadErr (Graph × WeightedGraph)) = Except.ok (g, w) := h
    obtain ⟨hg, hw⟩ := Prod.mk.inj (Except.ok.inj h2)
    rw [← hw]
    have := loadFold_weight ds d b rows initLoadState st
      (fun i u hu => by simp [initLoadState, lookupUser] at hu) hst
    simpa [initLoadState, WeightedGraph.getWeight] using this

theorem c6_weight_counts_rows_witness :
    ({ verts := [.district ⟨20, "Seefeld"⟩, .breed "Labrador",
                 .district ⟨10, "Altstadt"⟩]
     , weights := [((.district ⟨10, "Altstadt"⟩, .breed "Labrador"), 1),
                   ((.district ⟨20, "Seefeld"⟩, .breed "Labrador"), 1)] } :
      WeightedGraph).getWeight (.district ⟨10, "Altstadt"⟩) (.breed "Labrador") =
      List.countP
        (rowCounts [⟨10, "Altstadt"⟩, ⟨20, "Seefeld"⟩] ⟨10, "Altstadt"⟩ "Labrador")
        [⟨1, "20-29", "f", 10, "Labrador"⟩, ⟨2, "30-39", "m", 20, "Labrador"⟩] :=
  c6_weight_counts_rows [⟨10, "Altstadt"⟩, ⟨20, "Seefeld"⟩]
    [⟨1, "20-29", "f", 10, "Labrador"⟩, ⟨2, "30-39", "m", 20, "Labrador"⟩]
    { verts := [.user ⟨2, 34, "M", ⟨20, "Seefeld"⟩⟩, .breed "Labrador",
                .user ⟨1, 24, "F", ⟨10, "Altstadt"⟩⟩]
    , edges := [(.breed "Labrador", .user ⟨2, 34, "M", ⟨20, "Seefeld"⟩⟩),
                (.breed "Labrador", .user ⟨1, 24, "F", ⟨10, "Altstadt"⟩⟩)] }
    { verts := [.district ⟨20, "Seefeld"⟩, .breed "Labrador",
                .district ⟨10, "Altstadt"⟩]
    , weights := [((.district ⟨10, "Altstadt"⟩, .breed "Labrador"), 1),
                  ((.district ⟨20, "Seefeld"⟩, .breed "Labrador"), 1)] }
    ⟨10, "Altstadt"⟩ "Labrador" rfl

/-- C8, counterexample: two rows with the same district id 1 and distinct
names.  The result collapses to one district, but it keeps the
FIRST-parsed name "A" (set insertion of an equal-by-id object is a
no-op), not the last-parsed name "B" as claimed. -/
theorem c8_last_name_wins_counterexample :
    loadDistrictData [(1, "A"), (1, "B")] = [⟨1, "A"⟩] ∧
    (⟨1, "A"⟩ : District) ≠ ⟨1, "B"⟩ :=
  ⟨rfl, by decide⟩

/-- C8, amended: in `load_district_data`, duplicate ids collapse to a
single District in the result (no two result entries share an id), and
the FIRST-parsed name for a given id is the one retained (set insertion
of an equal-by-id object does not update the stored object). -/
theorem c8_district_collapse_first_name (rows : List (Int × String)) (i : Int)
    (r₀ : Int × String) (hfind : rows.find? (fun r => r.1 == i) = some r₀) :
    (loadDistrictData rows).Pairwise
      (fun a b => a.district_id ≠ b.district_id) ∧
    (loadDistrictData rows).find? (fun d => d.district_id == i) =
      some ⟨i, r₀.2⟩ :=
  ⟨loadFoldDistrict_nodup rows [] (by simp),
   loadFoldDistrict_new rows [] i r₀ (by simp [List.find?]) hfind⟩

theorem c8_district_collapse_first_name_witness :
    (loadDistrictData [(1, "A"), (1, "B"), (2, "C")]).Pairwise
      (fun a b => a.district_id ≠ b.district_id) ∧
    (loadDistrictData [(1, "A"), (1, "B"), (2, "C")]).find?
      (fun d => d.district_id == 1) = some ⟨1, "A"⟩ :=
  c8_district_collapse_first_name [(1, "A"), (1, "B"), (2, "C")] 1 (1, "A") rfl

/-- C5, counterexample: an origin id absent from the district lookup is
not silently skipped; `district_lookup[int(district_id)]` at line 120
raises `KeyError` and the whole call fails. -/
theorem c5_silent_skip_counterexample :
    getRawDistances [⟨1, "A"⟩] [(2, [(1, (5 : ℚ))])] = .error .keyError := rfl

/-- C5, amended: in `get_raw_district_distances`, a destination equal (by
id) to the origin is silently dropped, but an origin id absent from the
district lookup raises `KeyError` (the whole call fails), and so does a
destination id absent from the lookup; the written `if not origin` /
`if not destination` guards never trigger and nothing is silently
skipped on a missing key. -/
theorem c5_self_dropped_unknown_raises (ds : List District) :
    (∀ (oid : Int) (dests : List (Int × ℚ)) (rest : List (Int × List (Int × ℚ))),
      lookupDistrict ds oid = none →
      getRawDistances ds ((oid, dests) :: rest) = .error .keyError) ∧
    (∀ (oid : Int) (o : District) (did : Int) (dist : ℚ)
        (dtail : List (Int × ℚ)),
      lookupDistrict ds oid = some o →
      lookupDistrict ds did = none →
      getRawDistances ds [(oid, (did, dist) :: dtail)] = .error .keyError) ∧
    (∀ (o : District) (acc : List (District × ℚ)) (did : Int) (dist : ℚ)
        (dtail : List (Int × ℚ)) (dd : District),
      lookupDistrict ds did = some dd → districtBeq dd o = true →
      destFold ds o acc ((did, dist) :: dtail) = destFold ds o acc dtail) := by
  refine ⟨?_, ?_, ?_⟩
  · intro oid dests rest h
    simp only [getRawDistances, List.foldlM_cons, h]
    rfl
  · intro oid o did dist dtail ho hd
    simp only [getRawDistances, List.foldlM_cons, destFold, ho, hd]
    rfl
  · intro o acc did dist dtail dd hd hbeq
    simp [destFold, hd, hbeq]

theorem c5_self_dropped_unknown_raises_witness :
    getRawDistances [⟨1, "A"⟩, ⟨2, "B"⟩] [(3, [(1, (5 : ℚ))])] =
      .error .keyError ∧
    getRawDistances [⟨1, "A"⟩, ⟨2, "B"⟩] [(1, [(3, (5 : ℚ))])] =
      .error .keyError ∧
    destFold [⟨1, "A"⟩, ⟨2, "B"⟩] ⟨1, "A"⟩ [] [(1, (7 : ℚ))] =
      destFold [⟨1, "A"⟩, ⟨2, "B"⟩] ⟨1, "A"⟩ [] [] :=
  ⟨(c5_self_dropped_unknown_raises [⟨1, "A"⟩, ⟨2, "B"⟩]).1 3 [(1, 5)] []
     (by decide),
   (c5_self_dropped_unknown_raises [⟨1, "A"⟩, ⟨2, "B"⟩]).2.1 1 ⟨1, "A"⟩ 3 5 []
     (by decide) (by decide),
   (c5_self_dropped_unknown_raises [⟨1, "A"⟩, ⟨2, "B"⟩]).2.2 ⟨1, "A"⟩ [] 1 7 []
     ⟨1, "A"⟩ (by decide) (by decide)⟩

/-- C2, counterexample: a table with a single pair of distinct districts
at distance 5 has a nonzero maximum, yet the call raises
(`ZeroDivisionError`, because `difference = max - min = 0`), so the
function does not complete without error on every table with nonzero
maximum, and it does divide by zero. -/
theorem c2_single_distance_divzero_counterexample :
    normalizeDistances [(⟨1, "A"⟩, [(⟨2, "B"⟩, (5 : ℚ))])] =
      .error .zeroDivisionError ∧
    maxD [(⟨1, "A"⟩, [(⟨2, "B"⟩, (5 : ℚ))])] ≠ 0 := by
  have hs : hasSelfPair [(⟨1, "A"⟩, [(⟨2, "B"⟩, (5 : ℚ))])] = false := by decide
  have hmax : maxD [(⟨1, "A"⟩, [(⟨2, "B"⟩, (5 : ℚ))])] = 5 := by
    simp [maxD, distancesOf]
  have hmin : minD [(⟨1, "A"⟩, [(⟨2, "B"⟩, (5 : ℚ))])] = 5 := by
    simp [minD, distancesOf]
  constructor
  · unfold normalizeDistances
    rw [hs, hmax, hmin]
    rw [if_neg (by norm_num), if_neg (by norm_num : ¬ (5 : ℚ) = 0),
      if_pos (by norm_num : (5 : ℚ) - 5 = 0)]
  · rw [hmax]
    norm_num

/-- C2, amended: `normalize_district_distances` raises an error exactly
when the table contains a self pair (AssertionError), or the running
maximum (started at 0) is 0, which covers all-zero and empty data
(ValueError), or the running maximum equals the running minimum so that
`difference` is 0 (ZeroDivisionError on the first division); in every
other case it completes without error. -/
theorem c2_error_iff_degenerate (t : DistTable) :
    (∃ e, normalizeDistances t = .error e) ↔ normalizeFails t = true := by
  by_cases hs : hasSelfPair t = true
  · simp [normalizeDistances, normalizeFails, hs]
  · by_cases hm : maxD t = 0
    · simp [normalizeDistances, normalizeFails, hs, hm]
    · by_cases hd : maxD t - minD t = 0
      · simp [normalizeDistances, normalizeFails, hs, hm, hd]
      · rw [normalizeDistances_ok t (by simpa using hs) hm hd]
        simp [normalizeFails, hs, hm, hd]

/-- C1, counterexample: a non-empty table with a single pair at distance
7 has nonzero maximum, so the claim calls it accepted; but the call
raises `ZeroDivisionError` instead of completing, so there is no
post-call state with values in [0, 1] and the minimum pair mapped to
1.0. -/
theorem c1_accepted_gloss_counterexample :
    normalizeDistances [(⟨1, "A"⟩, [(⟨2, "B"⟩, (7 : ℚ))])] =
      .error .zeroDivisionError ∧
    maxD [(⟨1, "A"⟩, [(⟨2, "B"⟩, (7 : ℚ))])] ≠ 0 := by
  have hs : hasSelfPair [(⟨1, "A"⟩, [(⟨2, "B"⟩, (7 : ℚ))])] = false := by decide
  have hmax : maxD [(⟨1, "A"⟩, [(⟨2, "B"⟩, (7 : ℚ))])] = 7 := by
    simp [maxD, distancesOf]
  have hmin : minD [(⟨1, "A"⟩, [(⟨2, "B"⟩, (7 : ℚ))])] = 7 := by
    simp [minD, distancesOf]
  constructor
  · unfold normalizeDistances
    rw [hs, hmax, hmin]
    rw [if_neg (by norm_num), if_neg (by norm_num : ¬ (7 : ℚ) = 0),
      if_pos (by norm_num : (7 : ℚ) - 7 = 0)]
  · rw [hmax]
    norm_num

/-- C1, amended: whenever `normalize_district_distances` accepts a table
in the sense of returning normally (no self pairs, nonzero maximum, and
maximum distinct from minimum), every stored value of the result lies in
[0, 1], every pair carrying the global minimum raw distance is mapped to
1, and every pair carrying the global maximum raw distance is mapped
to 0. -/
theorem c1_normalization_bounds_and_extremes (t t' : DistTable)
    (h : normalizeDistances t = .ok t') :
    (∀ o d v, tableMem t' o d v → 0 ≤ v ∧ v ≤ 1) ∧
    (∀ o d v, tableMem t o d v → v = minD t → tableMem t' o d 1) ∧
    (∀ o d v, tableMem t o d v → v = maxD t → tableMem t' o d 0) := by
  by_cases hs : hasSelfPair t = true
  · simp [normalizeDistances, hs] at h
  · by_cases hm : maxD t = 0
    · simp [normalizeDistances, hs, hm] at h
    · by_cases hd : maxD t - minD t = 0
      · simp [normalizeDistances, hs, hm, hd] at h
      · rw [normalizeDistances_ok t (by simpa using hs) hm hd] at h
        have ht' : t' = mapTable (normTransform t) t := (Except.ok.inj h).symm
        subst ht'
        refine ⟨?_, ?_, ?_⟩
        · intro o d v hmem
          obtain ⟨l', hl', hv'⟩ := hmem
          exact boundsAll_mem
            (boundsAll_of_bounds _ (fun v hv => normTransform_bounds hm hd hv))
            hl' hv'
        · intro o d v hmem hveq
          have he : normTransform t v = 1 := by
            unfold normTransform
            rw [hveq]
            simp
          exact he ▸ tableMem_mapTable (normTransform t) hmem
        · intro o d v hmem hveq
          have he : normTransform t v = 0 := by
            unfold normTransform
            rw [hveq, div_self hd]
            ring
          exact he ▸ tableMem_mapTable (normTransform t) hmem

theorem c1_normalization_bounds_and_extremes_witness :
    (0 ≤ (1 : ℚ) ∧ (1 : ℚ) ≤ 1) ∧
    tableMem [(⟨1, "A"⟩, [(⟨2, "B"⟩, (1 : ℚ)), (⟨3, "C"⟩, 0)])]
      ⟨1, "A"⟩ ⟨2, "B"⟩ 1 ∧
    tableMem [(⟨1, "A"⟩, [(⟨2, "B"⟩, (1 : ℚ)), (⟨3, "C"⟩, 0)])]
      ⟨1, "A"⟩ ⟨3, "C"⟩ 0 := by
  have hs : hasSelfPair [(⟨1, "A"⟩, [(⟨2, "B"⟩, (2 : ℚ)), (⟨3, "C"⟩, 6)])] =
      false := by decide
  have hmax : maxD [(⟨1, "A"⟩, [(⟨2, "B"⟩, (2 : ℚ)), (⟨3, "C"⟩, 6)])] = 6 := by
    simp [maxD, distancesOf, max_def]
    norm_num
  have hmin : minD [(⟨1, "A"⟩, [(⟨2, "B"⟩, (2 : ℚ)), (⟨3, "C"⟩, 6)])] = 2 := by
    simp [minD, distancesOf, min_def]
    norm_num
  have hok := normalizeDistances_ok
    [(⟨1, "A"⟩, [(⟨2, "B"⟩, (2 : ℚ)), (⟨3, "C"⟩, 6)])] hs
    (by rw [hmax]; norm_num) (by rw [hmax, hmin]; norm_num)
  have heq : mapTable
      (normTransform [(⟨1, "A"⟩, [(⟨2, "B"⟩, (2 : ℚ)), (⟨3, "C"⟩, 6)])])
      [(⟨1, "A"⟩, [(⟨2, "B"⟩, (2 : ℚ)), (⟨3, "C"⟩, 6)])] =
      [(⟨1, "A"⟩, [(⟨2, "B"⟩, (1 : ℚ)), (⟨3, "C"⟩, 0)])] := by
    simp only [mapTable, List.map_cons, List.map_nil, normTransform, hmax, hmin]
    norm_num
  rw [heq] at hok
  have h := c1_normalization_bounds_and_extremes
    [(⟨1, "A"⟩, [(⟨2, "B"⟩, (2 : ℚ)), (⟨3, "C"⟩, 6)])]
    [(⟨1, "A"⟩, [(⟨2, "B"⟩, (1 : ℚ)), (⟨3, "C"⟩, 0)])] hok
  refine ⟨?_, ?_, ?_⟩
  · exact h.1 ⟨1, "A"⟩ ⟨2, "B"⟩ 1
      ⟨[(⟨2, "B"⟩, (1 : ℚ)), (⟨3, "C"⟩, 0)], by simp, by simp⟩
  · exact h.2.1 ⟨1, "A"⟩ ⟨2, "B"⟩ 2
      ⟨[(⟨2, "B"⟩, (2 : ℚ)), (⟨3, "C"⟩, 6)], by simp, by simp⟩ (by rw [hmin])
  · exact h.2.2 ⟨1, "A"⟩ ⟨3, "C"⟩ 6
      ⟨[(⟨2, "B"⟩, (2 : ℚ)), (⟨3, "C"⟩, 6)], by simp, by simp⟩ (by rw [hmax])

/-! ### Sanity checks on the string model -/

example : pyCapitalize "LABRADOR" = "Labrador" := by decide

example : pyCapitalize "mischling, klein" = "Mischling, klein" := by decide

example : containsMischling "Mischling, klein" = true := by decide

example : containsMischling "Labrador" = false := by decide

example : parseAgeRange "20-29" = some 24 := by decide

example : pyBlank "  " = true := by decide

example : pyBlank "f" = false := by decide

example : pyUpper "f " = "F " := by decide
